import Mathlib

/-!
Verification of the greenhouse heating/yield analysis program (src/app2.py)
against its natural-language specification.

The program's floating-point arithmetic is embedded over the real numbers ℝ,
its `int()` truncations over ℤ, and its day/hour loops as folds over lists.
`np.isfinite` is identically true in the real-number model, so the
non-finiteness guard of the arc-length routine is vacuous here.
-/

namespace Superfig

/-- Real-valued `atan2` with the semantics of Python's `math.atan2(y, x)`:
angle of the point `(x, y)` in `(-π, π]`, with `atan2 0 0 = 0`. -/
noncomputable def atan2 (y x : ℝ) : ℝ :=
  if 0 < x then Real.arctan (y / x)
  else if x < 0 then
    (if 0 ≤ y then Real.arctan (y / x) + Real.pi else Real.arctan (y / x) - Real.pi)
  else
    (if 0 < y then Real.pi / 2 else if y < 0 then -(Real.pi / 2) else 0)

/-- Embedding of `side_arc_length(Hs, d)` from src/app2.py lines 64-81:
circular-arc approximation of the curved sidewall. `d ≤ 0` returns `Hs`;
otherwise `R = (d² + Hs²)/(2d)`, `α = atan2(Hs, d − R)`, `δ = π − α`,
result `R·δ`, falling back to `Hs` when `R·δ ≤ 0` (the `np.isfinite`
half of the guard is vacuous over ℝ). -/
noncomputable def side_arc_length (Hs d : ℝ) : ℝ :=
  if d ≤ 0 then Hs
  else
    let R := (d ^ 2 + Hs ^ 2) / (2 * d)
    let alpha := atan2 Hs (d - R)
    let delta := Real.pi - alpha
    let s := R * delta
    if s ≤ 0 then Hs else s

/-- Diurnal cosine curve from src/app2.py lines 345-347:
`T(hour) = (tmin+tmax)/2 + (tmax−tmin)/2 · cos((hour−14)·2π/24)`. -/
noncomputable def curve_temp (tmin tmax : ℝ) (hour : ℕ) : ℝ :=
  (tmin + tmax) / 2 + (tmax - tmin) / 2 * Real.cos (((hour : ℝ) - 14) * 2 * Real.pi / 24)

/-- The 24-hour accumulation loop of src/app2.py lines 341-353: starting from
`(0.0, 0)`, each hour with curve temperature strictly below target adds
`area·U·(target − T)` to the load and one to the active-hour count. -/
noncomputable def day_loop (area u target tmin tmax : ℝ) : ℝ × ℕ :=
  (List.range 24).foldl
    (fun acc hour =>
      if curve_temp tmin tmax hour < target then
        (acc.1 + area * u * (target - curve_temp tmin tmax hour), acc.2 + 1)
      else acc)
    (0, 0)

/-- `daily_heat_load` accumulated by the hourly loop (src/app2.py line 352). -/
noncomputable def daily_heat_load (area u target tmin tmax : ℝ) : ℝ :=
  (day_loop area u target tmin tmax).1

/-- `hours_active` accumulated by the hourly loop (src/app2.py line 353). -/
noncomputable def hours_active (area u target tmin tmax : ℝ) : ℕ :=
  (day_loop area u target tmin tmax).2

/-- Synthesized daily minimum of src/app2.py lines 332-338 (no-observation
branch): `base − amp · sin(π · day_index / max(1, n_days − 1))`. -/
noncomputable def today_min_synth (base amp : ℝ) (i N : ℕ) : ℝ :=
  base - amp * Real.sin (Real.pi * (i : ℝ) / ((max 1 (N - 1) : ℕ) : ℝ))

/-- Synthesized daily maximum, src/app2.py line 339: minimum plus the fixed
10.0 °C diurnal swing. -/
noncomputable def today_max_synth (base amp : ℝ) (i N : ℕ) : ℝ :=
  today_min_synth base amp i N + 10

/-- Modelled from the spec: the `climate_scenario` selector
(`normal` / `conservative_cold`) of SimulationConfig is not present in
src/app2.py; only its `normal` branch (the synthesis above) is. -/
inductive ClimateScenario
  | normal
  | conservative_cold
deriving DecidableEq

/-- Modelled from the spec: scenario-aware synthesized minimum. The
`normal` branch is the source's synthesis; `conservative_cold` (absent from
src/app2.py) subtracts the spec's fixed 3.0 °C margin from the synthesized
minimum. -/
noncomputable def synth_min (sc : ClimateScenario) (base amp : ℝ) (i N : ℕ) : ℝ :=
  match sc with
  | ClimateScenario.normal => today_min_synth base amp i N
  | ClimateScenario.conservative_cold => today_min_synth base amp i N - 3.0

/-- Modelled from the spec: scenario-aware synthesized maximum, the
scenario minimum plus the fixed 10.0 °C swing (the margin is subtracted
before the swing is added). -/
noncomputable def synth_max (sc : ClimateScenario) (base amp : ℝ) (i N : ℕ) : ℝ :=
  synth_min sc base amp i N + 10

/-- The two energy sources of src/app2.py line 211:
`면세유(경유)` (fuel oil) and `농사용 전기` (electricity). -/
inductive EnergySource
  | fuel_oil
  | electricity
deriving DecidableEq

/-- Efficiency constant of src/app2.py line 310. -/
noncomputable def eff : EnergySource → ℝ
  | EnergySource.fuel_oil => 0.85
  | EnergySource.electricity => 0.98

/-- Calorific-value constant of src/app2.py line 311. -/
noncomputable def calorific : EnergySource → ℝ
  | EnergySource.fuel_oil => 8500
  | EnergySource.electricity => 860

/-- Fuel conversion of src/app2.py line 355:
`needed_fuel = daily_heat_load / (calorific * eff)`. -/
noncomputable def needed_fuel (es : EnergySource) (load : ℝ) : ℝ :=
  load / (calorific es * eff es)

/-- Daily fuel cost of src/app2.py line 356: `day_cost = needed_fuel * unit_fuel_cost`. -/
noncomputable def day_cost (es : EnergySource) (load price : ℝ) : ℝ :=
  needed_fuel es load * price

/-- Month-based yield multiplier of src/app2.py lines 361-366: January 0.8,
November and February 1.1, otherwise 1.0. -/
noncomputable def season_factor (month : ℕ) : ℝ :=
  if month = 1 then 0.8 else if month = 11 ∨ month = 2 then 1.1 else 1.0

/-- Even per-day yield base of src/app2.py line 316:
`winter_total_yield / max(1, n_days)`. -/
noncomputable def daily_base_yield (ty : ℝ) (n : ℕ) : ℝ :=
  ty / ((max 1 n : ℕ) : ℝ)

/-- Per-day yield of src/app2.py line 368: base yield times the month factor. -/
noncomputable def daily_yield (ty : ℝ) (n : ℕ) (month : ℕ) : ℝ :=
  daily_base_yield ty n * season_factor month

/-- Winter-revenue accumulation of src/app2.py lines 321 and 369: the loop
over the period's dates (represented by their months) adds
`daily_yield * market_price` each day, starting from `0.0`. -/
noncomputable def winter_revenue_total (months : List ℕ) (ty price : ℝ) : ℝ :=
  months.foldl (fun acc m => acc + daily_yield ty months.length m * price) 0

/-- Day count of src/app2.py lines 283-284: dates are embedded as ordinal
day numbers in ℤ, and `pd.date_range(start, end)` is inclusive on both
ends, empty when `end < start`. -/
def n_days (s e : ℤ) : ℕ :=
  if s ≤ e then (e - s + 1).toNat else 0

/-- The guard of src/app2.py lines 286-288 followed by the daily loop:
`none` means the run stopped at the `n_days <= 0` guard before any
simulation; `some k` means the daily loop executed and appended `k`
DailyResult rows (one per date). -/
def run_winter_sim (s e : ℤ) : Option ℕ :=
  if n_days s e ≤ 0 then none else some (n_days s e)

/-- One parsed weather row (src/app2.py lines 137-153) after numeric
coercion and `dropna`: a date (ordinal day in ℤ) with its tmin/tmax. -/
structure WRow where
  date : ℤ
  tmin : ℝ
  tmax : ℝ

/-- Scalar `.loc` lookup followed by `float()` as used at src/app2.py
lines 330-331: selecting one column at a date that matches exactly one row
yields that row's value; a date matching several rows yields a multi-row
selection whose `float()` coercion raises (`Except.error`). -/
def loc_scalar (df : List WRow) (d : ℤ) (f : WRow → ℝ) : Except Unit ℝ :=
  match df.filter (fun r => r.date == d) with
  | [r] => Except.ok (f r)
  | _ => Except.error ()

/-- The per-day temperature selection of src/app2.py lines 329-331: if the
date is in the table's index, take `float(df.loc[dt, tmin/tmax])` (which
raises on a duplicated date), otherwise use the synthesized fallback pair. -/
def today_pair (df : List WRow) (d : ℤ) (fallback : ℝ × ℝ) : Except Unit (ℝ × ℝ) :=
  if df.any (fun r => r.date == d) then
    match loc_scalar df d (fun r => r.tmin), loc_scalar df d (fun r => r.tmax) with
    | Except.ok tn, Except.ok tx => Except.ok (tn, tx)
    | _, _ => Except.error ()
  else Except.ok fallback

/-- Python's `int()` on a float: truncation toward zero. -/
noncomputable def pyint (x : ℝ) : ℤ :=
  if 0 ≤ x then ⌊x⌋ else ⌈x⌉

/-- Winter net profit of src/app2.py lines 383-386: revenue and fuel cost
are truncated to integers, then `winter_net_profit = revenue − fuel −
depreciation` (depreciation is already an integer, line 278). -/
noncomputable def winter_net_profit (rev fuel : ℝ) (depr : ℤ) : ℤ :=
  pyint rev - pyint fuel - depr

/-- Claim C1: the sidewall arc length equals `side_height` exactly when
`wing_length ≤ 0`; otherwise it equals `R·δ` with
`R = (wing_length² + side_height²)/(2·wing_length)`,
`α = atan2(side_height, wing_length − R)`, `δ = π − α`, except that a
non-positive `R·δ` (the degenerate case; non-finiteness cannot occur in
the real-number model) falls back to `side_height`. -/
theorem side_arc_length_cases (Hs d : ℝ) :
    (d ≤ 0 → side_arc_length Hs d = Hs) ∧
    (0 < d →
      (((d ^ 2 + Hs ^ 2) / (2 * d)) *
          (Real.pi - atan2 Hs (d - (d ^ 2 + Hs ^ 2) / (2 * d))) ≤ 0 →
        side_arc_length Hs d = Hs) ∧
      (0 < ((d ^ 2 + Hs ^ 2) / (2 * d)) *
          (Real.pi - atan2 Hs (d - (d ^ 2 + Hs ^ 2) / (2 * d))) →
        side_arc_length Hs d =
          ((d ^ 2 + Hs ^ 2) / (2 * d)) *
            (Real.pi - atan2 Hs (d - (d ^ 2 + Hs ^ 2) / (2 * d))))) := by
  refine ⟨fun hd => ?_, fun hd => ⟨fun hs => ?_, fun hs => ?_⟩⟩
  · simp only [side_arc_length, if_pos hd]
  · simp only [side_arc_length, if_neg (not_le.mpr hd)]
    simp only [if_pos hs]
  · simp only [side_arc_length, if_neg (not_le.mpr hd)]
    simp only [if_neg (not_le.mpr hs)]

/-- Witness for C1: the vertical-wall branch at `Hs = 2`, `d = 0`. -/
theorem side_arc_length_cases_witness : side_arc_length 2 0 = 2 :=
  (side_arc_length_cases 2 0).1 (le_refl 0)

/-- For a positive ordinate the sine of `atan2 y x` is the normalized
ordinate `y / √(x² + y²)`. -/
lemma sin_atan2_of_pos (y x : ℝ) (hy : 0 < y) :
    Real.sin (atan2 y x) = y / Real.sqrt (x ^ 2 + y ^ 2) := by
  rcases lt_trichotomy x 0 with hx | hx | hx
  · rw [atan2, if_neg (not_lt.mpr hx.le), if_pos hx, if_pos hy.le,
      Real.sin_add_pi, Real.sin_arctan]
    have hx0 : x ≠ 0 := ne_of_lt hx
    have h1 : 1 + (y / x) ^ 2 = (x ^ 2 + y ^ 2) / x ^ 2 := by
      field_simp
    rw [h1, Real.sqrt_div (by positivity) (x ^ 2), Real.sqrt_sq_eq_abs,
      abs_of_neg hx]
    have hs : 0 < Real.sqrt (x ^ 2 + y ^ 2) := Real.sqrt_pos.mpr (by positivity)
    field_simp
    ring
  · subst hx
    rw [atan2, if_neg (lt_irrefl 0), if_neg (lt_irrefl 0), if_pos hy,
      Real.sin_pi_div_two]
    rw [show (0 : ℝ) ^ 2 + y ^ 2 = y ^ 2 by ring, Real.sqrt_sq hy.le]
    exact (div_self hy.ne').symm
  · rw [atan2, if_pos hx, Real.sin_arctan]
    have hx0 : x ≠ 0 := ne_of_gt hx
    have h1 : 1 + (y / x) ^ 2 = (x ^ 2 + y ^ 2) / x ^ 2 := by
      field_simp
    rw [h1, Real.sqrt_div (by positivity) (x ^ 2), Real.sqrt_sq_eq_abs,
      abs_of_pos hx]
    have hs : 0 < Real.sqrt (x ^ 2 + y ^ 2) := Real.sqrt_pos.mpr (by positivity)
    field_simp

/-- For a positive ordinate, `atan2 y x` lies strictly between `0` and `π`. -/
lemma atan2_bounds (y x : ℝ) (hy : 0 < y) :
    0 < atan2 y x ∧ atan2 y x < Real.pi := by
  rcases lt_trichotomy x 0 with hx | hx | hx
  · rw [atan2, if_neg (not_lt.mpr hx.le), if_pos hx, if_pos hy.le]
    constructor
    · have := Real.neg_pi_div_two_lt_arctan (y / x)
      linarith [Real.pi_pos]
    · have harg : y / x < 0 := div_neg_of_pos_of_neg hy hx
      have hneg : Real.arctan (y / x) < 0 := by
        have := Real.arctan_strictMono harg
        rwa [Real.arctan_zero] at this
      linarith
  · subst hx
    rw [atan2, if_neg (lt_irrefl 0), if_neg (lt_irrefl 0), if_pos hy]
    constructor <;> linarith [Real.pi_pos]
  · rw [atan2, if_pos hx]
    constructor
    · have harg : 0 < y / x := div_pos hy hx
      have := Real.arctan_strictMono harg
      rwa [Real.arctan_zero] at this
    · have := Real.arctan_lt_pi_div_two (y / x)
      linarith [Real.pi_pos]

/-- On the circle of radius `R` through `(x, Hs)` with `x² + Hs² = R²`, the
swept arc `R · (π − atan2 Hs x)` is strictly longer than the height `Hs`. -/
lemma arc_gt_of_circle (Hs R x : ℝ) (hH : 0 < Hs) (hR : 0 < R)
    (hkey : x ^ 2 + Hs ^ 2 = R ^ 2) :
    Hs < R * (Real.pi - atan2 Hs x) := by
  obtain ⟨hα0, hαπ⟩ := atan2_bounds Hs x hH
  have hsin : Real.sin (atan2 Hs x) = Hs / R := by
    rw [sin_atan2_of_pos Hs x hH, hkey, Real.sqrt_sq hR.le]
  have hδ : 0 < Real.pi - atan2 Hs x := by linarith
  have hlt : Real.sin (Real.pi - atan2 Hs x) < Real.pi - atan2 Hs x :=
    Real.sin_lt hδ
  rw [Real.sin_pi_sub, hsin] at hlt
  calc Hs = R * (Hs / R) := by field_simp
    _ < R * (Real.pi - atan2 Hs x) := mul_lt_mul_of_pos_left hlt hR

/-- Claim C9: for positive `wing_length` and `side_height` (the arc
approximation is automatically finite and positive in the real-number
model, so the degeneracy fallback is not taken), the computed sidewall arc
length is strictly greater than `side_height`. -/
theorem arc_longer_than_side (Hs d : ℝ) (hH : 0 < Hs) (hd : 0 < d) :
    Hs < side_arc_length Hs d := by
  have hd0 : d ≠ 0 := hd.ne'
  have hR : 0 < (d ^ 2 + Hs ^ 2) / (2 * d) := by positivity
  have hkey : (d - (d ^ 2 + Hs ^ 2) / (2 * d)) ^ 2 + Hs ^ 2 =
      ((d ^ 2 + Hs ^ 2) / (2 * d)) ^ 2 := by
    field_simp
    ring
  have hmain := arc_gt_of_circle Hs ((d ^ 2 + Hs ^ 2) / (2 * d))
    (d - (d ^ 2 + Hs ^ 2) / (2 * d)) hH hR hkey
  have hspos : 0 < ((d ^ 2 + Hs ^ 2) / (2 * d)) *
      (Real.pi - atan2 Hs (d - (d ^ 2 + Hs ^ 2) / (2 * d))) :=
    lt_trans hH hmain
  simp only [side_arc_length, if_neg (not_le.mpr hd), if_neg (not_le.mpr hspos)]
  exact hmain

/-- Witness for C9: at `side_height = 2`, `wing_length = 1` the arc is
longer than 2. -/
theorem arc_longer_than_side_witness : (2 : ℝ) < side_arc_length 2 1 :=
  arc_longer_than_side 2 1 (by norm_num) (by norm_num)

/-- Claim C3 (evaluating the code at the failing input): with
`end = start` the `pd.date_range` has one element, the `n_days <= 0` guard
passes, and the daily loop runs producing one DailyResult — the run is not
aborted even though the sidebar warns that the end date must come after
the start date. -/
theorem equal_dates_still_simulate :
    run_winter_sim 0 0 = some 1 ∧ n_days 0 0 = 1 := by
  constructor <;> rfl

/-- Claim C4: the fine-hourly day loop accumulates exactly
`area · U · (target − T(h))` over the hours `h < 24` whose curve
temperature is strictly below target, the active-hour count is the number
of such hours, and it never exceeds 24. -/
theorem fine_hourly_day (a u tgt tn tx : ℝ) :
    daily_heat_load a u tgt tn tx =
      ∑ h in (Finset.range 24).filter (fun h => curve_temp tn tx h < tgt),
        a * u * (tgt - curve_temp tn tx h) ∧
    hours_active a u tgt tn tx =
      ((Finset.range 24).filter (fun h => curve_temp tn tx h < tgt)).card ∧
    hours_active a u tgt tn tx ≤ 24 := by
  have main : ∀ n : ℕ,
      (List.range n).foldl
        (fun acc hour =>
          if curve_temp tn tx hour < tgt then
            (acc.1 + a * u * (tgt - curve_temp tn tx hour), acc.2 + 1)
          else acc) ((0 : ℝ), (0 : ℕ)) =
      (∑ h in (Finset.range n).filter (fun h => curve_temp tn tx h < tgt),
          a * u * (tgt - curve_temp tn tx h),
        ((Finset.range n).filter (fun h => curve_temp tn tx h < tgt)).card) := by
    intro n
    induction n with
    | zero => simp
    | succ n ih =>
      rw [List.range_succ, List.foldl_append, ih]
      have hnot : n ∉ (Finset.range n).filter (fun h => curve_temp tn tx h < tgt) := by
        simp
      by_cases hp : curve_temp tn tx n < tgt
      · simp only [List.foldl_cons, List.foldl_nil, if_pos hp]
        rw [Finset.range_succ, Finset.filter_insert, if_pos hp,
          Finset.sum_insert hnot, Finset.card_insert_of_not_mem hnot]
        exact congrArg₂ Prod.mk (add_comm _ _) rfl
      · simp only [List.foldl_cons, List.foldl_nil, if_neg hp]
        rw [Finset.range_succ, Finset.filter_insert, if_neg hp]
  refine ⟨?_, ?_, ?_⟩
  · have := congrArg Prod.fst (main 24)
    simpa [daily_heat_load, day_loop] using this
  · have := congrArg Prod.snd (main 24)
    simpa [hours_active, day_loop] using this
  · have := congrArg Prod.snd (main 24)
    simp only [daily_heat_load, day_loop, hours_active] at *
    rw [this]
    exact le_trans (Finset.card_filter_le _ _) (le_of_eq (Finset.card_range 24))

/-- Counterexample for C7: a table holding two rows for the same date does
not yield the final duplicate row's pair — the scalar lookup fails
instead, because `float()` of a multi-row selection raises. -/
theorem duplicate_date_lookup_cex :
    today_pair [⟨0, 1, 11⟩, ⟨0, 2, 12⟩] 0 (5, 5) = Except.error () ∧
    today_pair [⟨0, 1, 11⟩, ⟨0, 2, 12⟩] 0 (5, 5) ≠ Except.ok (2, 12) := by
  refine ⟨rfl, fun h => ?_⟩
  have h0 : today_pair [⟨0, 1, 11⟩, ⟨0, 2, 12⟩] 0 (5, 5) = Except.error () := rfl
  rw [h0] at h
  exact Except.noConfusion h

/-- Claim C7 as amended: when several rows share the looked-up date the
per-day temperature selection errors out (aborting the run) instead of
applying any duplicate-resolution policy; a date matching exactly one row
yields that row's `(tmin, tmax)` pair. -/
theorem duplicate_date_lookup (df : List WRow) (d : ℤ) (fb : ℝ × ℝ) :
    (2 ≤ (df.filter (fun r => r.date == d)).length →
      today_pair df d fb = Except.error ()) ∧
    (∀ r : WRow, df.filter (fun r' => r'.date == d) = [r] →
      today_pair df d fb = Except.ok (r.tmin, r.tmax)) := by
  constructor
  · intro h2
    have hne : df.filter (fun r => r.date == d) ≠ [] := by
      intro hnil
      rw [hnil] at h2
      simp at h2
    obtain ⟨a1, l1, hl⟩ := List.exists_cons_of_ne_nil hne
    have hl1ne : l1 ≠ [] := by
      intro hnil
      rw [hnil] at hl
      rw [hl] at h2
      simp at h2
    obtain ⟨a2, l2, hl1⟩ := List.exists_cons_of_ne_nil hl1ne
    have hany : df.any (fun r => r.date == d) = true := by
      rw [List.any_eq_true]
      have ha1 : a1 ∈ df.filter (fun r => r.date == d) := by
        rw [hl]
        exact List.mem_cons_self a1 l1
      obtain ⟨hmem, hpa⟩ := List.mem_filter.mp ha1
      exact ⟨a1, hmem, hpa⟩
    have herr : ∀ f : WRow → ℝ, loc_scalar df d f = Except.error () := by
      intro f
      rw [loc_scalar, hl, hl1]
    rw [today_pair, if_pos hany, herr, herr]
  · intro r hr
    have hany : df.any (fun r' => r'.date == d) = true := by
      rw [List.any_eq_true]
      have ha : r ∈ df.filter (fun r' => r'.date == d) := by
        rw [hr]
        exact List.mem_cons_self r []
      obtain ⟨hmem, hpa⟩ := List.mem_filter.mp ha
      exact ⟨r, hmem, hpa⟩
    have hok : ∀ f : WRow → ℝ, loc_scalar df d f = Except.ok (f r) := by
      intro f
      rw [loc_scalar, hr]
    rw [today_pair, if_pos hany, hok, hok]

/-- Witness for the amended C7: a concrete two-row duplicate table makes
the lookup fail. -/
theorem duplicate_date_lookup_witness :
    today_pair [⟨1, 3, 13⟩, ⟨1, 4, 14⟩] 1 (0, 0) = Except.error () :=
  (duplicate_date_lookup [⟨1, 3, 13⟩, ⟨1, 4, 14⟩] 1 (0, 0)).1 (by decide)

/-- Claim C8: each day's yield is the even base `total / day_count` times
the month multiplier (January 0.8, November and February 1.1, otherwise
1.0), daily revenue is yield times price, and over a period whose months
all carry multiplier 1.0 the accumulated winter revenue is exactly
`daily_base_yield × price × day_count`. -/
theorem yield_allocation (months : List ℕ) (ty price : ℝ) :
    (season_factor 1 = 0.8 ∧ season_factor 11 = 1.1 ∧ season_factor 2 = 1.1 ∧
      ∀ m, m ≠ 1 → m ≠ 11 → m ≠ 2 → season_factor m = 1) ∧
    (∀ m, daily_yield ty months.length m =
      daily_base_yield ty months.length * season_factor m) ∧
    ((∀ m ∈ months, season_factor m = 1) →
      winter_revenue_total months ty price =
        daily_base_yield ty months.length * price * (months.length : ℝ)) := by
  refine ⟨⟨by norm_num [season_factor], by norm_num [season_factor],
    by norm_num [season_factor], fun m h1 h11 h2 => by norm_num [season_factor, h1, h11, h2]⟩,
    fun m => rfl, fun huni => ?_⟩
  have main : ∀ (n : ℕ) (l : List ℕ) (a : ℝ), (∀ m ∈ l, season_factor m = 1) →
      List.foldl (fun acc m => acc + daily_yield ty n m * price) a l =
        a + daily_base_yield ty n * price * (l.length : ℝ) := by
    intro n l
    induction l with
    | nil => intro a _; simp
    | cons m l ih =>
      intro a hall
      have hm : season_factor m = 1 := hall m (List.mem_cons_self m l)
      have htail : ∀ m' ∈ l, season_factor m' = 1 :=
        fun m' hm' => hall m' (List.mem_cons_of_mem m hm')
      rw [List.foldl_cons, ih _ htail]
      simp only [daily_yield, hm, List.length_cons]
      push_cast
      ring
  rw [winter_revenue_total, main months.length months 0 huni]
  ring

/-- Witness for C8: a two-day period entirely in March (multiplier 1.0). -/
theorem yield_allocation_witness :
    winter_revenue_total [3, 3] 8 2 =
      daily_base_yield 8 (List.length [3, 3]) * 2 * ((List.length [3, 3] : ℕ) : ℝ) :=
  (yield_allocation [3, 3] 8 2).2.2 (by
    intro m hm
    simp only [List.mem_cons, List.not_mem_nil, or_false] at hm
    rcases hm with h | h <;> subst h <;> norm_num [season_factor])

/-- Claim C5: for a date with no external observation at day-index `i` of an
`N`-day period, the synthesized minimum equals
`base − amp · sin(π·i / max(1, N−1))`, the maximum is that minimum plus the
fixed 10.0 °C swing, and (the half-sine dip) within the period the
synthesized minimum never exceeds `base` when `amp ≥ 0`. -/
theorem seasonal_trend_spec (base amp : ℝ) (i N : ℕ) :
    today_min_synth base amp i N =
      base - amp * Real.sin (Real.pi * (i : ℝ) / ((max 1 (N - 1) : ℕ) : ℝ)) ∧
    today_max_synth base amp i N = today_min_synth base amp i N + 10 ∧
    (i ≤ N - 1 → 0 ≤ amp → today_min_synth base amp i N ≤ base) := by
  refine ⟨rfl, rfl, fun hi hamp => ?_⟩
  have hden : (0 : ℝ) < ((max 1 (N - 1) : ℕ) : ℝ) := by
    have : 0 < max 1 (N - 1) := lt_of_lt_of_le one_pos (le_max_left 1 (N - 1))
    exact_mod_cast this
  have hθ0 : 0 ≤ Real.pi * (i : ℝ) / ((max 1 (N - 1) : ℕ) : ℝ) := by
    apply div_nonneg _ hden.le
    exact mul_nonneg Real.pi_pos.le (Nat.cast_nonneg i)
  have hiden : (i : ℝ) ≤ ((max 1 (N - 1) : ℕ) : ℝ) := by
    exact_mod_cast le_trans hi (le_max_right 1 (N - 1))
  have hθπ : Real.pi * (i : ℝ) / ((max 1 (N - 1) : ℕ) : ℝ) ≤ Real.pi := by
    rw [div_le_iff₀ hden]
    exact mul_le_mul_of_nonneg_left hiden Real.pi_pos.le
  have hsin : 0 ≤ Real.sin (Real.pi * (i : ℝ) / ((max 1 (N - 1) : ℕ) : ℝ)) :=
    Real.sin_nonneg_of_nonneg_of_le_pi hθ0 hθπ
  have : 0 ≤ amp * Real.sin (Real.pi * (i : ℝ) / ((max 1 (N - 1) : ℕ) : ℝ)) :=
    mul_nonneg hamp hsin
  simp only [today_min_synth]
  linarith

/-- Witness for C5: at `base = 0`, `amp = 1`, day-index 1 of a 3-day period
the synthesized minimum is at most the base offset. -/
theorem seasonal_trend_spec_witness : today_min_synth 0 1 1 3 ≤ 0 :=
  (seasonal_trend_spec 0 1 1 3).2.2 (by norm_num) (by norm_num)

/-- Claim C2: under the conservative-cold scenario the synthesized daily
minimum is exactly 3.0 °C below the normal-scenario minimum for the same
date, and the fixed margin is subtracted from the minimum before the
10 °C swing is added (the scenario maximum is the scenario minimum plus
10). -/
theorem conservative_cold_margin (base amp : ℝ) (i N : ℕ) :
    synth_min ClimateScenario.conservative_cold base amp i N =
      synth_min ClimateScenario.normal base amp i N - 3.0 ∧
    synth_max ClimateScenario.conservative_cold base amp i N =
      synth_min ClimateScenario.conservative_cold base amp i N + 10 :=
  ⟨rfl, rfl⟩

/-- Claim C6: fuel quantity is heat load over `calorific × efficiency`,
with fuel oil at `(8500, 0.85)` and electricity at `(860, 0.98)`, and the
day's fuel cost is the fuel quantity times the unit fuel price. -/
theorem fuel_conversion_spec (es : EnergySource) (load price : ℝ) :
    needed_fuel es load = load / (calorific es * eff es) ∧
    day_cost es load price = needed_fuel es load * price ∧
    calorific EnergySource.fuel_oil = 8500 ∧
    eff EnergySource.fuel_oil = 0.85 ∧
    calorific EnergySource.electricity = 860 ∧
    eff EnergySource.electricity = 0.98 :=
  ⟨rfl, rfl, rfl, rfl, rfl, rfl⟩

/-- Claim C10: winter net profit is computed from the accumulated revenue
and fuel cost truncated toward zero to integers minus the (integer)
depreciation, and each truncated total differs from the exact real sum by
strictly less than one unit. -/
theorem winter_totals_to_int (rev fuel : ℝ) (depr : ℤ) :
    winter_net_profit rev fuel depr = pyint rev - pyint fuel - depr ∧
    |rev - (pyint rev : ℝ)| < 1 ∧ |fuel - (pyint fuel : ℝ)| < 1 := by
  have key : ∀ x : ℝ, |x - (pyint x : ℝ)| < 1 := by
    intro x
    by_cases hx : 0 ≤ x
    · rw [pyint, if_pos hx, abs_of_nonneg (sub_nonneg.mpr (Int.floor_le x))]
      have := Int.sub_one_lt_floor x
      linarith
    · rw [pyint, if_neg hx, abs_sub_comm,
        abs_of_nonneg (sub_nonneg.mpr (Int.le_ceil x))]
      have := Int.ceil_lt_add_one x
      linarith
  exact ⟨rfl, key rev, key fuel⟩

end Superfig
